import Mathlib

/-!
Shallow embedding of the NewsBreak bulk campaign launcher.

The frontend (`frontend/src/App.jsx`) is embedded directly: the account
selection state updates (`toggleAccount`, `selectAll`), the accounts-page
search filter (`filteredAccounts`), the launch handler (`handleLaunch`),
the objective/status enumerations, and the launch-results rendering.

The backend dispatch engine (`backend/main.py`, per the README) is not part
of the sources; the Result Aggregator and the External API Adapter retry
loop are modelled from the specification and are marked as such in their
doc comments.
-/

namespace NBLauncher

/-! ## JavaScript string semantics -/

/-- JS `String.prototype.includes`: `needle` occurs as a contiguous
substring of the haystack character list. -/
def hasSubChars (needle : List Char) : List Char → Bool
  | [] => needle.isEmpty
  | c :: rest => needle.isPrefixOf (c :: rest) || hasSubChars needle rest

/-- JS `s.includes(sub)` on Lean strings. -/
def jsIncludes (s sub : String) : Bool :=
  hasSubChars sub.toList s.toList

/-- JS `String.prototype.toLowerCase` (on the character level). -/
def jsToLower (s : String) : String :=
  String.mk (s.toList.map Char.toLower)

/-- JS `String.prototype.trim`: strip whitespace from both ends. -/
def jsTrim (s : String) : String :=
  String.mk (((s.toList.dropWhile Char.isWhitespace).reverse.dropWhile Char.isWhitespace).reverse)

/-! ## Data model (frontend) -/

/-- One row of `GET /api/accounts` as the frontend consumes it.  `name`,
`organization_name` and `status` may be `null`/absent in the JSON, hence
`Option`. -/
structure AdAccount where
  id : Nat
  name : Option String
  organization_name : Option String
  status : Option String
deriving DecidableEq, Repr

/-! ## AccountsPage search filter (App.jsx lines 633-636)

```js
const filteredAccounts = accounts.filter(acc =>
  acc.name?.toLowerCase().includes(filter.toLowerCase()) ||
  acc.organization_name?.toLowerCase().includes(filter.toLowerCase())
)
```

Optional chaining: when `acc.name` is nullish the whole chain evaluates to
`undefined`, which is falsy in the `||`. -/

def accountMatches (filter : String) (acc : AdAccount) : Bool :=
  (match acc.name with
   | some n => jsIncludes (jsToLower n) (jsToLower filter)
   | none => false) ||
  (match acc.organization_name with
   | some o => jsIncludes (jsToLower o) (jsToLower filter)
   | none => false)

def filteredAccounts (filter : String) (accounts : List AdAccount) : List AdAccount :=
  accounts.filter (accountMatches filter)

/-! ## LaunchPage selection state (App.jsx lines 739-751)

```js
const toggleAccount = (id) => {
  setSelectedAccounts(prev =>
    prev.includes(id) ? prev.filter(x => x !== id) : [...prev, id]
  )
}
const selectAll = () => {
  if (selectedAccounts.length === accounts.length) {
    setSelectedAccounts([])
  } else {
    setSelectedAccounts(accounts.map(a => a.id))
  }
}
```
-/

def toggleAccount (id : Nat) (prev : List Nat) : List Nat :=
  if prev.contains id then prev.filter (fun x => x != id) else prev ++ [id]

def selectAll (accounts : List AdAccount) (selected : List Nat) : List Nat :=
  if selected.length = accounts.length then [] else accounts.map AdAccount.id

/-- Selection states reachable on the launch page: the selection starts
empty (`useState([])`) and is only ever updated by `toggleAccount` or
`selectAll`. -/
inductive SelectionReachable (accounts : List AdAccount) : List Nat → Prop
  | init : SelectionReachable accounts []
  | toggle (id : Nat) {s : List Nat} :
      SelectionReachable accounts s → SelectionReachable accounts (toggleAccount id s)
  | selectAllStep {s : List Nat} :
      SelectionReachable accounts s → SelectionReachable accounts (selectAll accounts s)

/-! ### Basic lemmas about the selection operations -/

lemma contains_iff_mem (s : List Nat) (id : Nat) : s.contains id = true ↔ id ∈ s := by
  simp [List.contains]

lemma toggleAccount_of_mem {id : Nat} {s : List Nat} (h : id ∈ s) :
    toggleAccount id s = s.filter (fun x => x != id) := by
  unfold toggleAccount
  rw [if_pos ((contains_iff_mem s id).mpr h)]

lemma toggleAccount_of_not_mem {id : Nat} {s : List Nat} (h : id ∉ s) :
    toggleAccount id s = s ++ [id] := by
  unfold toggleAccount
  rw [if_neg (fun hc => h ((contains_iff_mem s id).mp hc))]

/-! ## LaunchPage campaign form and launch handler (App.jsx lines 718-790)

The form state is
`{ name: '', objective: 2 /* TRAFFIC */, daily_budget: '', status: 1 }`;
the objective is chosen from the `objectives` select, the status from the
"Start campaign immediately" checkbox (`checked ? 1 : 2`), and name/budget
are free-text inputs. -/

/-- JS `parseFloat` restricted to the shapes producible by the
`type="number"` budget input: optional sign, integer digits, optional
decimal point and fraction digits; the longest valid numeric prefix is
parsed; `none` models `NaN` (no digits at all), which `JSON.stringify`
serializes as `null` just like the empty-budget case. -/
def parseFloatQ (s : String) : Option ℚ :=
  let cs := s.toList
  let signAndRest : Bool × List Char :=
    match cs with
    | '-' :: rest => (true, rest)
    | '+' :: rest => (false, rest)
    | _ => (false, cs)
  let intDigits := signAndRest.2.takeWhile Char.isDigit
  let afterInt := signAndRest.2.dropWhile Char.isDigit
  let fracDigits : List Char :=
    match afterInt with
    | '.' :: r => r.takeWhile Char.isDigit
    | _ => []
  if intDigits.isEmpty && fracDigits.isEmpty then none
  else
    let digitsVal : List Char → Nat := fun ds =>
      ds.foldl (fun a c => a * 10 + (c.toNat - 48)) 0
    let den : Nat := 10 ^ fracDigits.length
    let mag : ℚ := mkRat (digitsVal intDigits * den + digitsVal fracDigits) den
    some (if signAndRest.1 then -mag else mag)

/-- The `campaign` `useState` of `LaunchPage`: `daily_budget` is the raw
text-input string, as in the source. -/
structure CampaignForm where
  name : String
  objective : Nat
  daily_budget : String
  status : Nat
deriving DecidableEq, Repr

/-- `useState({ name: '', objective: 2, daily_budget: '', status: 1 })`. -/
def initialCampaign : CampaignForm :=
  { name := "", objective := 2, daily_budget := "", status := 1 }

/-- The `campaign` object of the `POST /api/bulk-launch` body:
`{...campaign, daily_budget: campaign.daily_budget ? parseFloat(campaign.daily_budget) : null}`. -/
structure CampaignPayload where
  name : String
  objective : Nat
  daily_budget : Option ℚ
  status : Nat
deriving DecidableEq, Repr

/-- The full `POST /api/bulk-launch` body. -/
structure LaunchPayload where
  account_ids : List Nat
  campaign : CampaignPayload
deriving DecidableEq, Repr

/-- What one invocation of `handleLaunch` does before any network I/O:
either it returns early showing an error toast (no dispatch), or it issues
the POST with the given payload. -/
inductive LaunchAction where
  | rejected (toast : String)
  | dispatched (payload : LaunchPayload)
deriving DecidableEq, Repr

/-- `handleLaunch` (App.jsx lines 753-772): the synchronous validation
guards and the construction of the POST body. -/
def handleLaunch (selectedAccounts : List Nat) (campaign : CampaignForm) : LaunchAction :=
  if selectedAccounts.length = 0 then .rejected "Select at least one account"
  else if jsTrim campaign.name = "" then .rejected "Enter a campaign name"
  else .dispatched
    { account_ids := selectedAccounts
      campaign :=
        { name := campaign.name
          objective := campaign.objective
          daily_budget :=
            if campaign.daily_budget = "" then none else parseFloatQ campaign.daily_budget
          status := campaign.status } }

/-- The objective select options (App.jsx lines 785-790). -/
def objectives : List (Nat × String) :=
  [(1, "Awareness"), (2, "Traffic"), (3, "App Install"), (4, "Lead Generation")]

/-- The "Start campaign immediately" checkbox handler:
`status: e.target.checked ? 1 : 2`. -/
def statusFromCheckbox (checked : Bool) : Nat :=
  if checked then 1 else 2

/-- Campaign-form states reachable in `LaunchPage`: starting from
`initialCampaign`, each input's `onChange` overwrites exactly one field;
the objective always comes from the `objectives` select options and the
status from the checkbox. -/
inductive FormReachable : CampaignForm → Prop
  | init : FormReachable initialCampaign
  | setName (s : String) {c : CampaignForm} :
      FormReachable c → FormReachable { c with name := s }
  | setObjective (v : Nat) (hv : v ∈ objectives.map Prod.fst) {c : CampaignForm} :
      FormReachable c → FormReachable { c with objective := v }
  | setBudget (s : String) {c : CampaignForm} :
      FormReachable c → FormReachable { c with daily_budget := s }
  | setStatus (checked : Bool) {c : CampaignForm} :
      FormReachable c → FormReachable { c with status := statusFromCheckbox checked }

/-! ## Launch results rendering (App.jsx lines 936-968)

A succeeded entry is rendered as
`{r.account_name} • Campaign ID: {r.campaign_id}`; entries arrive as JSON
objects, modelled as finite maps from field name to rendered string value
(React renders a missing/undefined field as the empty string). -/

def succeededResultLine (entry : String → Option String) : String :=
  (entry "account_name").getD "" ++ " • Campaign ID: " ++ (entry "campaign_id").getD ""

/-- A concrete succeeded entry carrying both a `campaign_id` field and a
(hypothetical) `remote_campaign_id` field with a different value. -/
def sampleSucceededEntry : String → Option String
  | "account_id" => some "7"
  | "account_name" => some "Acme"
  | "campaign_id" => some "C1"
  | "remote_campaign_id" => some "R9"
  | _ => none

/-! ## Spec-modelled backend: Result Aggregator (spec §4.4)

The backend (`backend/main.py` per the README) is not among the sources;
only its frontend caller is. The Result Aggregator below is modelled from
the specification. -/

/-- Error taxonomy of spec §7. -/
inductive ErrorKind where
  | credentialNotFound
  | credentialInactive
  | validationRejected
  | rateLimited
  | timeout
  | networkError
deriving DecidableEq, Repr

/-- `AccountOutcome` of spec §3: exactly one per requested account. -/
inductive AccountOutcome where
  | success (remote_campaign_id : Nat)
  | failure (kind : ErrorKind) (message : String)
deriving DecidableEq, Repr

def AccountOutcome.isSuccess : AccountOutcome → Bool
  | .success _ => true
  | .failure _ _ => false

/-- A `succeeded` report entry: `{account_id, account_name, remote_campaign_id}`. -/
structure SucceededEntry where
  account_id : Nat
  account_name : String
  remote_campaign_id : Nat
deriving DecidableEq, Repr

/-- A `failed` report entry: `{account_id, account_name, error_kind, message}`. -/
structure FailedEntry where
  account_id : Nat
  account_name : String
  error_kind : ErrorKind
  message : String
deriving DecidableEq, Repr

/-- `LaunchReport` of spec §3: the succeeded/failed partition. -/
structure LaunchReport where
  succeeded : List SucceededEntry
  failed : List FailedEntry
deriving DecidableEq, Repr

/-- Modelled from the spec: the Result Aggregator (§4.4) of the backend
Bulk Campaign Dispatch Engine, which is not under the sources (only the
frontend caller of `/api/bulk-launch` is). Given the original request
order, a display name per account, and the one `AccountOutcome` per
requested account, it stable-partitions the outcomes into `succeeded` and
`failed`, each preserving the original request order. -/
def aggregate (order : List Nat) (name : Nat → String)
    (outcome : Nat → AccountOutcome) : LaunchReport where
  succeeded := order.filterMap fun id =>
    match outcome id with
    | .success rid =>
        some { account_id := id, account_name := name id, remote_campaign_id := rid }
    | .failure _ _ => none
  failed := order.filterMap fun id =>
    match outcome id with
    | .success _ => none
    | .failure k m =>
        some { account_id := id, account_name := name id, error_kind := k, message := m }

/-- The account ids of the succeeded partition, in partition order. -/
def succeededIds (r : LaunchReport) : List Nat :=
  r.succeeded.map SucceededEntry.account_id

/-- The account ids of the failed partition, in partition order. -/
def failedIds (r : LaunchReport) : List Nat :=
  r.failed.map FailedEntry.account_id

/-- Concrete display names for witness scenarios. -/
def demoName : Nat → String := fun _ => "Account"

/-- Spec §8 Scenario A outcomes: accounts 1 and 3 succeed, account 2 has an
inactive credential. -/
def demoOutcome : Nat → AccountOutcome := fun id =>
  if id = 2 then .failure .credentialInactive "Credential inactive"
  else .success (100 + id)

/-! ## Spec-modelled backend: External API Adapter retry loop (spec §4.2, §7)

Modelled from the spec: the Adapter sends up to `maxAttempts` calls for one
account, retrying only transient failures (rate limit, network error, 5xx);
non-transient responses end the loop at once. `responses k` is the
external API's response to the adapter's `k`-th call (0-based). -/

/-- Response classification per spec §4.2: transient failures are
`RateLimited`, `NetworkError` and 5xx server errors. -/
inductive RespKind where
  | success (remote_campaign_id : Nat)
  | rateLimited
  | networkError
  | serverError
  | validationRejected
  | credentialInactive
  | otherClientError
deriving DecidableEq, Repr

def RespKind.isTransient : RespKind → Bool
  | .rateLimited => true
  | .networkError => true
  | .serverError => true
  | _ => false

/-- Retry bound of spec §4.2: "up to a small fixed bound (e.g., 3 attempts)". -/
def maxAttempts : Nat := 3

/-- Modelled from the spec: the Adapter retry loop. `attempt` is the index
of the call about to be made, `fuel` the number of retries still allowed
after it. Returns (total number of calls made so far, final response). -/
def adapterGo (responses : Nat → RespKind) : Nat → Nat → Nat × RespKind
  | attempt, 0 => (attempt + 1, responses attempt)
  | attempt, fuel + 1 =>
    if (responses attempt).isTransient then adapterGo responses (attempt + 1) fuel
    else (attempt + 1, responses attempt)

/-- Modelled from the spec: one full Adapter run for one account. -/
def adapterRun (responses : Nat → RespKind) : Nat × RespKind :=
  adapterGo responses 0 (maxAttempts - 1)

/-! ## Helper lemmas -/

lemma hasSubChars_nil (l : List Char) : hasSubChars [] l = true := by
  cases l <;> simp [hasSubChars, List.isPrefixOf, List.isEmpty]

lemma jsIncludes_empty (s : String) : jsIncludes s "" = true := by
  unfold jsIncludes
  have h0 : ("" : String).toList = [] := rfl
  rw [h0]
  exact hasSubChars_nil _

lemma jsToLower_empty : jsToLower "" = "" := rfl

/-! ## Claim theorems -/

/-- Concrete account list used in witness scenarios. -/
def demoAccounts : List AdAccount :=
  [{ id := 1, name := none, organization_name := none, status := none },
   { id := 2, name := some "Acme", organization_name := none, status := some "active" }]

/-- C8: assuming all account ids are pairwise distinct, every selection
state reachable from the empty selection by `toggleAccount` and
`selectAll` operations is duplicate-free. -/
theorem c8_selection_nodup (accounts : List AdAccount) (s : List Nat)
    (hacc : (accounts.map AdAccount.id).Nodup) (hs : SelectionReachable accounts s) :
    s.Nodup := by
  induction hs with
  | init => exact List.nodup_nil
  | @toggle id t _ ih =>
    by_cases hmem : id ∈ t
    · rw [toggleAccount_of_mem hmem]
      exact ih.filter _
    · rw [toggleAccount_of_not_mem hmem]
      refine List.nodup_append.mpr ⟨ih, List.nodup_singleton id, ?_⟩
      intro a ha hab
      rw [List.mem_singleton] at hab
      subst hab
      exact hmem ha
  | @selectAllStep t _ ih =>
    unfold selectAll
    split
    · exact List.nodup_nil
    · exact hacc

/-- C8 witness: toggling account 1 from the empty selection yields a
duplicate-free selection. -/
theorem c8_selection_nodup_witness : (toggleAccount 1 []).Nodup :=
  c8_selection_nodup demoAccounts (toggleAccount 1 []) (by decide)
    (SelectionReachable.toggle 1 SelectionReachable.init)

/-- C9: on a duplicate-free selection, applying `toggleAccount x` twice
yields a selection with exactly the same membership. -/
theorem c9_toggle_twice_membership (s : List Nat) (x : Nat) (_hs : s.Nodup) (y : Nat) :
    (y ∈ toggleAccount x (toggleAccount x s) ↔ y ∈ s) := by
  by_cases hx : x ∈ s
  · rw [toggleAccount_of_mem hx]
    have hx2 : x ∉ s.filter (fun z => z != x) := by simp
    rw [toggleAccount_of_not_mem hx2]
    by_cases hyx : y = x
    · subst hyx
      simp [List.mem_append, hx]
    · simp [List.mem_append, List.mem_filter, hyx]
  · rw [toggleAccount_of_not_mem hx]
    have hx2 : x ∈ s ++ [x] := by simp
    rw [toggleAccount_of_mem hx2]
    by_cases hyx : y = x
    · subst hyx
      simp [List.mem_filter, hx]
    · simp [List.mem_filter, List.mem_append, hyx]

/-- C9 witness: double-toggling account 1 on the selection `[1, 2]` keeps
account 2 selected exactly as before. -/
theorem c9_toggle_twice_membership_witness :
    ((2 : Nat) ∈ toggleAccount 1 (toggleAccount 1 [1, 2]) ↔ (2 : Nat) ∈ [1, 2]) :=
  c9_toggle_twice_membership [1, 2] 1 (by decide) 2

/-- C10: under the empty search filter, an account whose `name` and
`organization_name` are both null is excluded from `filteredAccounts`,
while every account with a defined `name` is included. -/
theorem c10_empty_search_filter (accounts : List AdAccount) (acc : AdAccount)
    (hmem : acc ∈ accounts) :
    ((acc.name = none ∧ acc.organization_name = none) →
        acc ∉ filteredAccounts "" accounts) ∧
    (∀ n, acc.name = some n → acc ∈ filteredAccounts "" accounts) := by
  constructor
  · rintro ⟨hn, ho⟩ hin
    have hmatch := (List.mem_filter.mp hin).2
    unfold accountMatches at hmatch
    rw [hn, ho] at hmatch
    simp at hmatch
  · intro n hn
    refine List.mem_filter.mpr ⟨hmem, ?_⟩
    unfold accountMatches
    rw [hn, jsToLower_empty]
    simp [jsIncludes_empty]

/-- C10 witness: on a concrete account list under the empty filter, the
nameless, organization-less account 1 is excluded and the named account 2
is included. -/
theorem c10_empty_search_filter_witness :
    (({ id := 1, name := none, organization_name := none, status := none } : AdAccount)
        ∉ filteredAccounts "" demoAccounts) ∧
    (({ id := 2, name := some "Acme", organization_name := none,
        status := some "active" } : AdAccount) ∈ filteredAccounts "" demoAccounts) :=
  ⟨(c10_empty_search_filter demoAccounts
      { id := 1, name := none, organization_name := none, status := none }
      (by decide)).1 ⟨rfl, rfl⟩,
   (c10_empty_search_filter demoAccounts
      { id := 2, name := some "Acme", organization_name := none, status := some "active" }
      (by decide)).2 "Acme" rfl⟩

/-- Inversion of a dispatching `handleLaunch` run: the POST body is exactly
the selected accounts plus the form fields, with only `daily_budget`
transformed. -/
lemma handleLaunch_dispatched_eq {sel : List Nat} {c : CampaignForm} {p : LaunchPayload}
    (h : handleLaunch sel c = .dispatched p) :
    p = { account_ids := sel
          campaign :=
            { name := c.name
              objective := c.objective
              daily_budget := if c.daily_budget = "" then none else parseFloatQ c.daily_budget
              status := c.status } } := by
  unfold handleLaunch at h
  by_cases h1 : sel.length = 0
  · rw [if_pos h1] at h
    exact absurd h (by simp)
  · rw [if_neg h1] at h
    by_cases h2 : jsTrim c.name = ""
    · rw [if_pos h2] at h
      exact absurd h (by simp)
    · rw [if_neg h2] at h
      cases h
      rfl

/-- C3: `handleLaunch` issues the POST to `/api/bulk-launch` exactly when
the selected account list is non-empty and the campaign name is non-empty
after trimming; otherwise it returns early and no dispatch occurs. -/
theorem c3_sync_validation (selectedAccounts : List Nat) (campaign : CampaignForm) :
    (∃ p, handleLaunch selectedAccounts campaign = .dispatched p) ↔
      (selectedAccounts ≠ [] ∧ jsTrim campaign.name ≠ "") := by
  constructor
  · rintro ⟨p, hp⟩
    unfold handleLaunch at hp
    by_cases h1 : selectedAccounts.length = 0
    · rw [if_pos h1] at hp
      exact absurd hp (by simp)
    · refine ⟨fun he => h1 (by rw [he]; rfl), ?_⟩
      rw [if_neg h1] at hp
      by_cases h2 : jsTrim campaign.name = ""
      · rw [if_pos h2] at hp
        exact absurd hp (by simp)
      · exact h2
  · rintro ⟨h1, h2⟩
    unfold handleLaunch
    rw [if_neg (fun h0 => h1 (List.length_eq_zero.mp h0)), if_neg h2]
    exact ⟨_, rfl⟩

/-- Invariant of reachable form states: the objective is always one of the
`objectives` select values and the status is always the checkbox encoding
1 (active) or 2 (paused). -/
lemma formReachable_invariant {c : CampaignForm} (hc : FormReachable c) :
    c.objective ∈ objectives.map Prod.fst ∧ (c.status = 1 ∨ c.status = 2) := by
  induction hc with
  | init => exact ⟨by decide, Or.inl rfl⟩
  | setName s _ ih => exact ih
  | setObjective v hv _ ih => exact ⟨hv, ih.2⟩
  | setBudget s _ ih => exact ih
  | setStatus checked _ ih =>
    refine ⟨ih.1, ?_⟩
    unfold statusFromCheckbox
    by_cases h : checked
    · rw [if_pos h]
      exact Or.inl rfl
    · rw [if_neg h]
      exact Or.inr rfl

/-- C5: any payload dispatched from a reachable form state transmits the
objective as one of the integers of the fixed enumeration
Awareness = 1, Traffic = 2, App Install = 3, Lead Generation = 4, and the
status as Active = 1 or Paused = 2. -/
theorem c5_objective_status_enumeration (selectedAccounts : List Nat)
    (campaign : CampaignForm) (p : LaunchPayload) (hc : FormReachable campaign)
    (hd : handleLaunch selectedAccounts campaign = .dispatched p) :
    (∃ label, (p.campaign.objective, label) ∈ objectives) ∧
    (p.campaign.status = 1 ∨ p.campaign.status = 2) ∧
    objectives = [(1, "Awareness"), (2, "Traffic"), (3, "App Install"), (4, "Lead Generation")] := by
  have hinv := formReachable_invariant hc
  have hp := handleLaunch_dispatched_eq hd
  subst hp
  refine ⟨?_, hinv.2, rfl⟩
  rcases List.mem_map.mp hinv.1 with ⟨pair, hpair, hfst⟩
  exact ⟨pair.2, by rw [show (campaign.objective, pair.2) = pair from by rw [← hfst]]; exact hpair⟩

/-- C5 witness: launching with the default Traffic objective and Active
status from a reachable form state transmits objective 2 and status 1. -/
theorem c5_objective_status_enumeration_witness :
    (∃ label, ((2 : Nat), label) ∈ objectives) ∧
    ((1 : Nat) = 1 ∨ (1 : Nat) = 2) ∧
    objectives = [(1, "Awareness"), (2, "Traffic"), (3, "App Install"), (4, "Lead Generation")] :=
  c5_objective_status_enumeration [5]
    { name := "Sale", objective := 2, daily_budget := "", status := 1 }
    { account_ids := [5]
      campaign := { name := "Sale", objective := 2, daily_budget := none, status := 1 } }
    (FormReachable.setName "Sale" FormReachable.init) (by decide)

/-- C6 counterexample: entering `-5` in the budget field dispatches a
payload whose `daily_budget` is the negative number `-5`, which is neither
absent nor a positive decimal. -/
theorem c6_positive_budget_counterexample :
    handleLaunch [5] { name := "Sale", objective := 2, daily_budget := "-5", status := 1 } =
      LaunchAction.dispatched
        { account_ids := [5]
          campaign := { name := "Sale", objective := 2, daily_budget := some (-5), status := 1 } }
    ∧ ((-5 : ℚ) < 0) := by
  constructor
  · decide
  · norm_num

/-- C6 (amended): the dispatched `daily_budget` is `null` exactly when the
budget field is the empty string, and otherwise is `parseFloat` of the
entered string, with no positivity (or any sign) check. -/
theorem c6_budget_transmission (selectedAccounts : List Nat) (campaign : CampaignForm)
    (p : LaunchPayload) (hd : handleLaunch selectedAccounts campaign = .dispatched p) :
    p.campaign.daily_budget =
      if campaign.daily_budget = "" then none else parseFloatQ campaign.daily_budget := by
  rw [handleLaunch_dispatched_eq hd]

/-- C6 witness: with the budget field `-5`, the transmitted budget equals
`parseFloat "-5"`. -/
theorem c6_budget_transmission_witness :
    (some (-5 : ℚ) : Option ℚ) =
      if ("-5" : String) = "" then none else parseFloatQ "-5" :=
  c6_budget_transmission [5] { name := "Sale", objective := 2, daily_budget := "-5", status := 1 }
    { account_ids := [5]
      campaign := { name := "Sale", objective := 2, daily_budget := some (-5), status := 1 } }
    (by decide)

/-- C4 counterexample: the results view renders a succeeded entry from its
`campaign_id` field, not from `remote_campaign_id`; on an entry carrying
both, the rendered line does not contain the `remote_campaign_id` value. -/
theorem c4_remote_field_not_displayed :
    sampleSucceededEntry "remote_campaign_id" = some "R9" ∧
    jsIncludes (succeededResultLine sampleSucceededEntry) "R9" = false := by
  exact ⟨rfl, by decide⟩

/-- C4 (amended): the created campaign identifier a succeeded entry carries
is read from the field `campaign_id`, and that, together with
`account_name`, is what the results view displays. -/
theorem c4_view_displays_campaign_id (entry : String → Option String) (v : String)
    (hv : entry "campaign_id" = some v) :
    succeededResultLine entry =
      (entry "account_name").getD "" ++ " • Campaign ID: " ++ v := by
  unfold succeededResultLine
  rw [hv]
  rfl

/-- C4 witness: on the concrete entry, the rendered line is the account
name followed by the `campaign_id` value `C1`. -/
theorem c4_view_displays_campaign_id_witness :
    succeededResultLine sampleSucceededEntry =
      (sampleSucceededEntry "account_name").getD "" ++ " • Campaign ID: " ++ "C1" :=
  c4_view_displays_campaign_id sampleSucceededEntry "C1" rfl

/-! ### Aggregator lemmas (for C1 and C2) -/

lemma succeededIds_aggregate (order : List Nat) (name : Nat → String)
    (outcome : Nat → AccountOutcome) :
    succeededIds (aggregate order name outcome) =
      order.filter (fun id => (outcome id).isSuccess) := by
  unfold succeededIds aggregate
  induction order with
  | nil => rfl
  | cons a t ih =>
    cases h : outcome a <;>
      simp_all [List.filterMap_cons, List.filter_cons, h, AccountOutcome.isSuccess]

lemma failedIds_aggregate (order : List Nat) (name : Nat → String)
    (outcome : Nat → AccountOutcome) :
    failedIds (aggregate order name outcome) =
      order.filter (fun id => !(outcome id).isSuccess) := by
  unfold failedIds aggregate
  induction order with
  | nil => rfl
  | cons a t ih =>
    cases h : outcome a <;>
      simp_all [List.filterMap_cons, List.filter_cons, h, AccountOutcome.isSuccess]

lemma length_filter_add_not (l : List Nat) (p : Nat → Bool) :
    (l.filter p).length + (l.filter (fun a => !(p a))).length = l.length := by
  induction l with
  | nil => rfl
  | cons x t ih =>
    by_cases h : p x <;> simp [List.filter_cons, h] <;> omega

lemma aggregate_length (order : List Nat) (name : Nat → String)
    (outcome : Nat → AccountOutcome) :
    (aggregate order name outcome).succeeded.length
      + (aggregate order name outcome).failed.length = order.length := by
  have h1 : (aggregate order name outcome).succeeded.length
      = (order.filter (fun id => (outcome id).isSuccess)).length := by
    rw [← succeededIds_aggregate order name outcome]
    exact (List.length_map _ _).symm
  have h2 : (aggregate order name outcome).failed.length
      = (order.filter (fun id => !(outcome id).isSuccess)).length := by
    rw [← failedIds_aggregate order name outcome]
    exact (List.length_map _ _).symm
  rw [h1, h2]
  exact length_filter_add_not order _

/-- C1: the report of the aggregator satisfies
`succeeded.length + failed.length = N`, and each requested account id lies
in exactly one of the two partitions. -/
theorem c1_partition_totals (order : List Nat) (name : Nat → String)
    (outcome : Nat → AccountOutcome) :
    ((aggregate order name outcome).succeeded.length
        + (aggregate order name outcome).failed.length = order.length) ∧
    (∀ id, id ∈ order →
      ((id ∈ succeededIds (aggregate order name outcome) ∧
          id ∉ failedIds (aggregate order name outcome)) ∨
       (id ∉ succeededIds (aggregate order name outcome) ∧
          id ∈ failedIds (aggregate order name outcome)))) := by
  refine ⟨aggregate_length order name outcome, ?_⟩
  intro id hid
  rw [succeededIds_aggregate, failedIds_aggregate]
  by_cases h : (outcome id).isSuccess
  · exact Or.inl ⟨List.mem_filter.mpr ⟨hid, h⟩,
      fun hin => by simpa [h] using (List.mem_filter.mp hin).2⟩
  · exact Or.inr ⟨fun hin => h ((List.mem_filter.mp hin).2),
      List.mem_filter.mpr ⟨hid, by simpa using h⟩⟩

/-- C1 witness: in Scenario A (accounts 1 and 3 succeed, account 2 fails),
account 1 lies in the succeeded partition only. -/
theorem c1_partition_totals_witness :
    ((1 : Nat) ∈ succeededIds (aggregate [1, 2, 3] demoName demoOutcome) ∧
       (1 : Nat) ∉ failedIds (aggregate [1, 2, 3] demoName demoOutcome)) ∨
    ((1 : Nat) ∉ succeededIds (aggregate [1, 2, 3] demoName demoOutcome) ∧
       (1 : Nat) ∈ failedIds (aggregate [1, 2, 3] demoName demoOutcome)) :=
  (c1_partition_totals [1, 2, 3] demoName demoOutcome).2 1 (by decide)

/-- Filtering a duplicate-free list preserves the relative order of any two
surviving elements, measured by `indexOf`. -/
lemma indexOf_filter_lt {l : List Nat} (p : Nat → Bool) (hnd : l.Nodup) {a b : Nat}
    (ha : a ∈ l.filter p) (hb : b ∈ l.filter p)
    (hab : l.indexOf a < l.indexOf b) :
    (l.filter p).indexOf a < (l.filter p).indexOf b := by
  induction l with
  | nil => simp at ha
  | cons x t ih =>
    have hndt : t.Nodup := hnd.of_cons
    by_cases hpx : p x
    · rw [List.filter_cons_of_pos hpx] at ha hb ⊢
      by_cases hax : a = x
      · subst hax
        have hba : b ≠ a := by
          intro e
          subst e
          exact lt_irrefl _ hab
        rw [List.indexOf_cons_self, List.indexOf_cons_ne _ (Ne.symm hba)]
        exact Nat.succ_pos _
      · by_cases hbx : b = x
        · subst hbx
          rw [List.indexOf_cons_self] at hab
          exact absurd hab (Nat.not_lt_zero _)
        · have hat : a ∈ t.filter p := by
            rcases List.mem_cons.mp ha with h | h
            · exact absurd h hax
            · exact h
          have hbt : b ∈ t.filter p := by
            rcases List.mem_cons.mp hb with h | h
            · exact absurd h hbx
            · exact h
          rw [List.indexOf_cons_ne _ (Ne.symm hax), List.indexOf_cons_ne _ (Ne.symm hbx)] at hab
          rw [List.indexOf_cons_ne _ (Ne.symm hax), List.indexOf_cons_ne _ (Ne.symm hbx)]
          exact Nat.succ_lt_succ (ih hndt hat hbt (Nat.lt_of_succ_lt_succ hab))
    · rw [List.filter_cons_of_neg hpx] at ha hb ⊢
      have hxt : x ∉ t := (List.nodup_cons.mp hnd).1
      have hax : a ≠ x := fun e => hxt (e ▸ (List.mem_filter.mp ha).1)
      have hbx : b ≠ x := fun e => hxt (e ▸ (List.mem_filter.mp hb).1)
      rw [List.indexOf_cons_ne _ (Ne.symm hax), List.indexOf_cons_ne _ (Ne.symm hbx)] at hab
      exact ih hndt ha hb (Nat.lt_of_succ_lt_succ hab)

/-- C2: the aggregator's partitions are stable: for positions `i < j` of
the (deduplicated) request order whose accounts land in the same
partition, the entry of account `i` precedes the entry of account `j` in
that partition. -/
theorem c2_stable_partition_order (order : List Nat) (name : Nat → String)
    (outcome : Nat → AccountOutcome) (hnd : order.Nodup)
    (i j : Fin order.length) (hij : (i : Nat) < (j : Nat)) :
    ((order.get i ∈ succeededIds (aggregate order name outcome) ∧
        order.get j ∈ succeededIds (aggregate order name outcome)) →
      (succeededIds (aggregate order name outcome)).indexOf (order.get i) <
        (succeededIds (aggregate order name outcome)).indexOf (order.get j)) ∧
    ((order.get i ∈ failedIds (aggregate order name outcome) ∧
        order.get j ∈ failedIds (aggregate order name outcome)) →
      (failedIds (aggregate order name outcome)).indexOf (order.get i) <
        (failedIds (aggregate order name outcome)).indexOf (order.get j)) := by
  have hidx : order.indexOf (order.get i) < order.indexOf (order.get j) := by
    rw [List.get_indexOf hnd i, List.get_indexOf hnd j]
    exact hij
  rw [succeededIds_aggregate, failedIds_aggregate]
  exact ⟨fun hm => indexOf_filter_lt _ hnd hm.1 hm.2 hidx,
         fun hm => indexOf_filter_lt _ hnd hm.1 hm.2 hidx⟩

/-- C2 witness: in Scenario A on the request order `[1, 2, 3]`, both
account 1 (position 0) and account 3 (position 2) succeed, and account 1's
entry precedes account 3's entry in the succeeded partition. -/
theorem c2_stable_partition_order_witness :
    (succeededIds (aggregate [1, 2, 3] demoName demoOutcome)).indexOf
        ([1, 2, 3].get ⟨0, by decide⟩) <
      (succeededIds (aggregate [1, 2, 3] demoName demoOutcome)).indexOf
        ([1, 2, 3].get ⟨2, by decide⟩) :=
  (c2_stable_partition_order [1, 2, 3] demoName demoOutcome (by decide)
      ⟨0, by decide⟩ ⟨2, by decide⟩ (by decide)).1 ⟨by decide, by decide⟩

/-! ### Adapter lemmas (for C7) -/

/-- Every call of an adapter run except the final one received a transient
response: the loop only continues past a call when its response was
transient. -/
lemma adapterGo_transient_of_lt (responses : Nat → RespKind) (fuel attempt k : Nat)
    (h1 : attempt ≤ k) (h2 : k + 1 < (adapterGo responses attempt fuel).1) :
    (responses k).isTransient = true := by
  induction fuel generalizing attempt with
  | zero =>
    simp only [adapterGo] at h2
    omega
  | succ fuel ih =>
    by_cases ht : (responses attempt).isTransient
    · rcases Nat.eq_or_lt_of_le h1 with he | hlt
      · rw [he] at ht
        exact ht
      · simp only [adapterGo, if_pos ht] at h2
        exact ih (attempt + 1) hlt h2
    · simp only [adapterGo, if_neg ht] at h2
      omega

/-- C7: a `ValidationRejected` or `CredentialInactive` response is never
retried: if the adapter's `k`-th call returns one of these kinds, that call
is the last one of the run, so the external call is invoked at most once
past such a response. -/
theorem c7_fatal_not_retried (responses : Nat → RespKind) (k : Nat)
    (hk : k < (adapterRun responses).1)
    (hfatal : responses k = .validationRejected ∨ responses k = .credentialInactive) :
    (adapterRun responses).1 = k + 1 := by
  by_contra hne
  have h2 : k + 1 < (adapterRun responses).1 := by omega
  have ht := adapterGo_transient_of_lt responses (maxAttempts - 1) 0 k (Nat.zero_le k) h2
  rcases hfatal with h | h <;> rw [h] at ht <;> simp [RespKind.isTransient] at ht

/-- C7 witness: when the first external response is `ValidationRejected`,
the adapter run consists of exactly one call. -/
theorem c7_fatal_not_retried_witness :
    (adapterRun (fun _ => RespKind.validationRejected)).1 = 0 + 1 :=
  c7_fatal_not_retried (fun _ => RespKind.validationRejected) 0 (by decide) (Or.inl rfl)

end NBLauncher
